import Mathlib

/-!
Verification development for the meeting-platform integration code of this
repository: the Tencent-Meeting REST client (`src/api/TencentMeeting.ts`),
the `Group` model cascade-destroy hook and the `formatGroupName` helper
(`src/api/database/models/Group.ts`).

The TypeScript is shallowly embedded: pure computations become Lean
functions, the HTTP/exception control flow of `tmRequest` becomes explicit
outcome passing, and JavaScript numbers occurring as page counters, HTTP
status codes and unix timestamps are modelled as `Nat`.
-/

namespace Yuanjian

/-! ### Decimal rendering of numbers

JavaScript template interpolation (`` `${n}` ``) and `JSON.stringify(n)`
render a nonnegative number as its decimal digit string.  `natToString` is
that rendering, written with structural recursion on a fuel argument so
that it evaluates inside the kernel. -/

/-- The character of a decimal digit `d < 10`. -/
def digitChar (d : Nat) : Char := Char.ofNat (48 + d % 10)

/-- Little-endian decimal digits of `n`; `fuel` bounds the recursion depth
(`fuel ≥ n` is always enough). -/
def natDigitsRevAux : Nat → Nat → List Nat
  | 0, _ => []
  | _ + 1, 0 => []
  | fuel + 1, n + 1 => (n + 1) % 10 :: natDigitsRevAux fuel ((n + 1) / 10)

/-- Little-endian decimal digits of `n` (empty for `0`). -/
def natDigitsRev (n : Nat) : List Nat := natDigitsRevAux n n

/-- Value of a little-endian digit list. -/
def digitsVal : List Nat → Nat
  | [] => 0
  | d :: ds => d + 10 * digitsVal ds

/-- Decimal rendering of a natural number, as JavaScript renders it. -/
def natToString (n : Nat) : String :=
  if n = 0 then "0" else String.mk ((natDigitsRev n).reverse.map digitChar)

theorem digitsVal_natDigitsRevAux : ∀ fuel n, n ≤ fuel →
    digitsVal (natDigitsRevAux fuel n) = n := by
  intro fuel
  induction fuel with
  | zero => intro n h; interval_cases n; rfl
  | succ f ih =>
    intro n h
    match n with
    | 0 => rfl
    | m + 1 =>
      have hdiv : (m + 1) / 10 ≤ f := by
        have := Nat.div_lt_self (Nat.succ_pos m) (by decide : 1 < 10)
        omega
      simp only [natDigitsRevAux, digitsVal, ih _ hdiv]
      omega

theorem digitsVal_natDigitsRev (n : Nat) : digitsVal (natDigitsRev n) = n :=
  digitsVal_natDigitsRevAux n n (Nat.le_refl n)

theorem natDigitsRevAux_lt_ten : ∀ fuel n d, d ∈ natDigitsRevAux fuel n → d < 10 := by
  intro fuel
  induction fuel with
  | zero => intro n d h; simp [natDigitsRevAux] at h
  | succ f ih =>
    intro n d h
    match n with
    | 0 => simp [natDigitsRevAux] at h
    | m + 1 =>
      simp only [natDigitsRevAux, List.mem_cons] at h
      rcases h with h | h
      · omega
      · exact ih _ _ h

theorem digitChar_toNat {d : Nat} (h : d < 10) : (digitChar d).toNat = 48 + d := by
  revert h
  revert d
  decide

theorem digitChar_inj {d e : Nat} (hd : d < 10) (he : e < 10)
    (h : digitChar d = digitChar e) : d = e := by
  have := congrArg Char.toNat h
  rw [digitChar_toNat hd, digitChar_toNat he] at this
  omega

theorem map_digitChar_inj : ∀ xs ys : List Nat, (∀ x ∈ xs, x < 10) → (∀ y ∈ ys, y < 10) →
    xs.map digitChar = ys.map digitChar → xs = ys := by
  intro xs
  induction xs with
  | nil => intro ys _ _ h; cases ys <;> simp_all
  | cons x xs ih =>
    intro ys hx hy h
    cases ys with
    | nil => simp at h
    | cons y ys =>
      simp only [List.map_cons, List.cons.injEq] at h
      have hxy : x = y := digitChar_inj (hx x (by simp)) (hy y (by simp)) h.1
      have := ih ys (fun a ha => hx a (by simp [ha])) (fun a ha => hy a (by simp [ha])) h.2
      simp [hxy, this]

theorem natDigitsRev_inj {m n : Nat} (h : natDigitsRev m = natDigitsRev n) : m = n := by
  have := congrArg digitsVal h
  rwa [digitsVal_natDigitsRev, digitsVal_natDigitsRev] at this

theorem natToString_inj : Function.Injective natToString := by
  intro m n h
  unfold natToString at h
  by_cases hm : m = 0 <;> by_cases hn : n = 0
  · omega
  · exfalso
    rw [if_pos hm, if_neg hn] at h
    have hdata := congrArg String.data h
    simp only [String.data] at hdata
    have hd : ['0'] = ((natDigitsRev n).reverse.map digitChar) := hdata
    have hval := digitsVal_natDigitsRev n
    match hrev : (natDigitsRev n).reverse, hd' : natDigitsRev n with
    | [], _ => rw [hrev] at hd; simp at hd
    | [d], _ =>
      rw [hrev] at hd
      simp only [List.map_cons, List.map_nil, List.cons.injEq] at hd
      have hdd : d ∈ natDigitsRevAux n n := by
        have : d ∈ (natDigitsRev n).reverse := by rw [hrev]; simp
        simpa [natDigitsRev] using List.mem_reverse.mp this
      have hlt := natDigitsRevAux_lt_ten n n d hdd
      have h2 : digitChar 0 = '0' := by decide
      have hd0 : d = 0 := digitChar_inj hlt (by decide) (hd.1.symm.trans h2.symm)
      have : natDigitsRev n = [d] := by
        have := congrArg List.reverse hrev
        simpa using this
      rw [this, hd0] at hval
      simp [digitsVal] at hval
      omega
    | d :: e :: t, _ => rw [hrev] at hd; simp at hd
  · exfalso
    rw [if_neg hm, if_pos hn] at h
    have hdata := congrArg String.data h
    simp only [String.data] at hdata
    have hd : ((natDigitsRev m).reverse.map digitChar) = ['0'] := hdata
    have hval := digitsVal_natDigitsRev m
    match hrev : (natDigitsRev m).reverse with
    | [] => rw [hrev] at hd; simp at hd
    | [d] =>
      rw [hrev] at hd
      simp only [List.map_cons, List.map_nil, List.cons.injEq] at hd
      have hdd : d ∈ natDigitsRevAux m m := by
        have : d ∈ (natDigitsRev m).reverse := by rw [hrev]; simp
        simpa [natDigitsRev] using List.mem_reverse.mp this
      have hlt := natDigitsRevAux_lt_ten m m d hdd
      have h2 : digitChar 0 = '0' := by decide
      have hd0 : d = 0 := digitChar_inj hlt (by decide) (hd.1.trans h2.symm)
      have hrev' : natDigitsRev m = [d] := by
        have := congrArg List.reverse hrev
        simpa using this
      rw [hrev', hd0] at hval
      simp [digitsVal] at hval
      omega
    | d :: e :: t => rw [hrev] at hd; simp at hd
  · rw [if_neg hm, if_neg hn] at h
    have hdata := congrArg String.data h
    simp only [String.data] at hdata
    have hrev := List.reverse_injective
      (map_digitChar_inj _ _
        (fun x hx => natDigitsRevAux_lt_ten m m x (by
          have := List.mem_reverse.mp hx; simpa [natDigitsRev] using this))
        (fun y hy => natDigitsRevAux_lt_ten n n y (by
          have := List.mem_reverse.mp hy; simpa [natDigitsRev] using this))
        hdata)
    exact natDigitsRev_inj hrev

/-! ### Bytes, hex and base64

Node's `crypto.createHmac('sha256', key).update(str)` consumes the UTF-8
bytes of its string arguments; `.digest('hex')` renders the MAC as 64
lowercase hex characters, and `Buffer.from(hex, "utf8").toString('base64')`
base64-encodes the bytes of that hex text. -/

/-- UTF-8 encoding of one character, as a list of byte values. -/
def utf8EncodeCharNat (c : Char) : List Nat :=
  let n := c.toNat
  if n < 128 then [n]
  else if n < 2048 then [192 + n / 64, 128 + n % 64]
  else if n < 65536 then [224 + n / 4096, 128 + n / 64 % 64, 128 + n % 64]
  else [240 + n / 262144, 128 + n / 4096 % 64, 128 + n / 64 % 64, 128 + n % 64]

/-- UTF-8 bytes of a string. -/
def utf8Bytes (s : String) : List Nat := s.data.flatMap utf8EncodeCharNat

/-- Lowercase hex digit. -/
def hexDigitChar (d : Nat) : Char := "0123456789abcdef".data.getD (d % 16) '0'

/-- The 64-hex-character rendering of a 256-bit digest value, what Node's
`.digest('hex')` produces. -/
def hexOfDigest (n : Nat) : String :=
  String.mk ((List.range 64).map (fun i => hexDigitChar (n >>> (4 * (63 - i)) % 16)))

/-- The base64 alphabet. -/
def base64Table : List Char :=
  "ABCDEFGHIJKLMNOPQRSTUVWXYZabcdefghijklmnopqrstuvwxyz0123456789+/".data

/-- One base64 alphabet character. -/
def b64c (n : Nat) : Char := base64Table.getD (n % 64) 'A'

/-- Standard base64 encoding of a byte list, with `=` padding. -/
def base64Encode : List Nat → List Char
  | [] => []
  | [a] => [b64c (a / 4), b64c (a % 4 * 16), '=', '=']
  | [a, b] => [b64c (a / 4), b64c (a % 4 * 16 + b / 16), b64c (b % 16 * 4), '=']
  | a :: b :: c :: rest =>
    b64c (a / 4) :: b64c (a % 4 * 16 + b / 16) :: b64c (b % 16 * 4 + c / 64) ::
      b64c (c % 64) :: base64Encode rest

/-! ### SHA-256 and HMAC-SHA-256

An executable model of the hash behind `crypto.createHmac('sha256', ·)`.
Words are `Nat`s kept below `2 ^ 32` by explicit `% 2 ^ 32` reductions;
a digest is the 256-bit value of the eight final hash words. -/

namespace Sha256

/-- Reduce to a 32-bit word. -/
def w32 (x : Nat) : Nat := x % 4294967296

/-- Right rotation of a 32-bit word. -/
def rotr (n x : Nat) : Nat := w32 ((x >>> n) ||| (x <<< (32 - n)))

def ch (x y z : Nat) : Nat := (x &&& y) ^^^ ((x ^^^ 4294967295) &&& z)

def maj (x y z : Nat) : Nat := (x &&& y) ^^^ (x &&& z) ^^^ (y &&& z)

def bsig0 (x : Nat) : Nat := rotr 2 x ^^^ rotr 13 x ^^^ rotr 22 x

def bsig1 (x : Nat) : Nat := rotr 6 x ^^^ rotr 11 x ^^^ rotr 25 x

def ssig0 (x : Nat) : Nat := rotr 7 x ^^^ rotr 18 x ^^^ (x >>> 3)

def ssig1 (x : Nat) : Nat := rotr 17 x ^^^ rotr 19 x ^^^ (x >>> 10)

/-- The SHA-256 round constants (FIPS 180-4), written in decimal. -/
def K : List Nat :=
  [1116352408, 1899447441, 3049323471, 3921009573, 961987163, 1508970993,
   2453635748, 2870763221, 3624381080, 310598401, 607225278, 1426881987,
   1925078388, 2162078206, 2614888103, 3248222580, 3835390401, 4022224774,
   264347078, 604807628, 770255983, 1249150122, 1555081692, 1996064986,
   2554220882, 2821834349, 2952996808, 3210313671, 3336571891, 3584528711,
   113926993, 338241895, 666307205, 773529912, 1294757372, 1396182291,
   1695183700, 1986661051, 2177026350, 2456956037, 2730485921, 2820302411,
   3259730800, 3345764771, 3516065817, 3600352804, 4094571909, 275423344,
   430227734, 506948616, 659060556, 883997877, 958139571, 1322822218,
   1537002063, 1747873779, 1955562222, 2024104815, 2227730452, 2361852424,
   2428436474, 2756734187, 3204031479, 3329325298]

/-- The eight working variables of the compression function. -/
structure Hash8 where
  a : Nat
  b : Nat
  c : Nat
  d : Nat
  e : Nat
  f : Nat
  g : Nat
  h : Nat

/-- The SHA-256 initial hash value (FIPS 180-4), written in decimal. -/
def initH : Hash8 :=
  ⟨1779033703, 3144134277, 1013904242, 2773480762,
   1359893119, 2600822924, 528734635, 1541459225⟩

/-- Big-endian 32-bit words from a byte list. -/
def bytesToWords : List Nat → List Nat
  | a :: b :: c :: d :: rest => (((a * 256 + b) * 256 + c) * 256 + d) :: bytesToWords rest
  | _ => []

/-- `n` as `k` big-endian bytes. -/
def natToBytesBE (k n : Nat) : List Nat :=
  (List.range k).map (fun i => n >>> (8 * (k - 1 - i)) % 256)

/-- SHA-256 padding: `0x80`, zeros to 56 mod 64, then the 64-bit bit length. -/
def pad (msg : List Nat) : List Nat :=
  msg ++ [128] ++ List.replicate ((55 + 64 - msg.length % 64) % 64) 0 ++
    natToBytesBE 8 (8 * msg.length)

/-- Split into 64-byte blocks. -/
def chunk64 : List Nat → List (List Nat)
  | [] => []
  | b :: rest => ((b :: rest).take 64) :: chunk64 ((b :: rest).drop 64)
  termination_by bs => bs.length
  decreasing_by simp [List.length_drop]; omega

/-- Extend 16 message words to the 64-word schedule. -/
def extendSchedule (init : List Nat) : List Nat :=
  (List.range 48).foldl (fun w i =>
    let j := i + 16
    w ++ [w32 (ssig1 (w.getD (j - 2) 0) + w.getD (j - 7) 0 +
               ssig0 (w.getD (j - 15) 0) + w.getD (j - 16) 0)]) init

/-- One compression round. -/
def round (w : List Nat) (s : Hash8) (i : Nat) : Hash8 :=
  let t1 := w32 (s.h + bsig1 s.e + ch s.e s.f s.g + K.getD i 0 + w.getD i 0)
  let t2 := w32 (bsig0 s.a + maj s.a s.b s.c)
  ⟨w32 (t1 + t2), s.a, s.b, s.c, w32 (s.d + t1), s.e, s.f, s.g⟩

/-- Compress one block into the running hash. -/
def compress (hs : Hash8) (block : List Nat) : Hash8 :=
  let w := extendSchedule (bytesToWords block)
  let fin := (List.range 64).foldl (round w) hs
  ⟨w32 (hs.a + fin.a), w32 (hs.b + fin.b), w32 (hs.c + fin.c), w32 (hs.d + fin.d),
   w32 (hs.e + fin.e), w32 (hs.f + fin.f), w32 (hs.g + fin.g), w32 (hs.h + fin.h)⟩

/-- The 256-bit digest value of a final hash state. -/
def digestOf (s : Hash8) : Nat :=
  ((((((w32 s.a * 4294967296 + w32 s.b) * 4294967296 + w32 s.c) * 4294967296 + w32 s.d) *
        4294967296 + w32 s.e) * 4294967296 + w32 s.f) * 4294967296 + w32 s.g) *
    4294967296 + w32 s.h

/-- SHA-256 of a byte list, as a 256-bit natural number. -/
def sha256 (msg : List Nat) : Nat :=
  digestOf ((chunk64 (pad msg)).foldl compress initH)

theorem digestOf_lt (s : Hash8) : digestOf s < 2 ^ 256 := by
  have ha : w32 s.a < 4294967296 := Nat.mod_lt _ (by decide)
  have hb : w32 s.b < 4294967296 := Nat.mod_lt _ (by decide)
  have hc : w32 s.c < 4294967296 := Nat.mod_lt _ (by decide)
  have hd : w32 s.d < 4294967296 := Nat.mod_lt _ (by decide)
  have he : w32 s.e < 4294967296 := Nat.mod_lt _ (by decide)
  have hf : w32 s.f < 4294967296 := Nat.mod_lt _ (by decide)
  have hg : w32 s.g < 4294967296 := Nat.mod_lt _ (by decide)
  have hh : w32 s.h < 4294967296 := Nat.mod_lt _ (by decide)
  unfold digestOf
  have h2 : (2 : Nat) ^ 256 =
      ((((((4294967295 * 4294967296 + 4294967295) * 4294967296 + 4294967295) * 4294967296 +
          4294967295) * 4294967296 + 4294967295) * 4294967296 + 4294967295) * 4294967296 +
          4294967295) * 4294967296 + 4294967295 + 1 := by norm_num
  rw [h2]
  have mono : ∀ x y b c : Nat, x ≤ b → y ≤ c → x * 4294967296 + y ≤ b * 4294967296 + c := by
    intro x y b c hx hy
    have := Nat.mul_le_mul_right 4294967296 hx
    omega
  have step1 := mono _ _ _ _ (Nat.le_of_lt_succ ha) (Nat.le_of_lt_succ hb)
  have step2 := mono _ _ _ _ step1 (Nat.le_of_lt_succ hc)
  have step3 := mono _ _ _ _ step2 (Nat.le_of_lt_succ hd)
  have step4 := mono _ _ _ _ step3 (Nat.le_of_lt_succ he)
  have step5 := mono _ _ _ _ step4 (Nat.le_of_lt_succ hf)
  have step6 := mono _ _ _ _ step5 (Nat.le_of_lt_succ hg)
  have step7 := mono _ _ _ _ step6 (Nat.le_of_lt_succ hh)
  omega

theorem sha256_lt (msg : List Nat) : sha256 msg < 2 ^ 256 := digestOf_lt _

end Sha256

/-- HMAC-SHA-256 of a message under a key (both byte lists), as a 256-bit
natural number: zero-pad (or pre-hash) the key to the 64-byte block size,
then hash `(key ⊕ opad) ++ H((key ⊕ ipad) ++ msg)`. -/
def hmacSha256 (key msg : List Nat) : Nat :=
  let k0 := if 64 < key.length then Sha256.natToBytesBE 32 (Sha256.sha256 key) else key
  let kp := k0 ++ List.replicate (64 - k0.length) 0
  Sha256.sha256 ((kp.map (fun b => b ^^^ 92)) ++
    Sha256.natToBytesBE 32 (Sha256.sha256 ((kp.map (fun b => b ^^^ 54)) ++ msg)))

theorem hmacSha256_lt (key msg : List Nat) : hmacSha256 key msg < 2 ^ 256 :=
  Sha256.sha256_lt _

/-! ### The request signature (`sign` in `TencentMeeting.ts`)

```
const tobeSigned = `${httpMethod}\nX-TC-Key=${secretId}&X-TC-Nonce=${headerNonce}` +
  `&X-TC-Timestamp=${headerTimestamp}` + `\n${requestUri}\n${requestBody}`;
const signature = crypto.createHmac('sha256', secretKey).update(tobeSigned).digest('hex');
return Buffer.from(signature, "utf8").toString('base64');
```
-/

/-- The string-to-sign assembled by `sign`. -/
def tobeSigned (secretId httpMethod : String) (headerNonce headerTimestamp : Nat)
    (requestUri requestBody : String) : String :=
  httpMethod ++ "\n" ++ "X-TC-Key=" ++ secretId ++ "&X-TC-Nonce=" ++ natToString headerNonce ++
    "&X-TC-Timestamp=" ++ natToString headerTimestamp ++ "\n" ++ requestUri ++ "\n" ++ requestBody

/-- The hex rendering of the HMAC-SHA-256 of `msg` keyed by `secretKey`
(Node's `.digest('hex')`). -/
def hexHmacSha256 (secretKey msg : String) : String :=
  hexOfDigest (hmacSha256 (utf8Bytes secretKey) (utf8Bytes msg))

/-- `sign` from `TencentMeeting.ts`: base64 of the UTF-8 bytes of the hex
HMAC digest of the string-to-sign. -/
def sign (secretId secretKey httpMethod : String) (headerNonce headerTimestamp : Nat)
    (requestUri requestBody : String) : String :=
  String.mk (base64Encode (utf8Bytes (hexHmacSha256 secretKey
    (tobeSigned secretId httpMethod headerNonce headerTimestamp requestUri requestBody))))

/-- The canonical string exactly as the specification words it: "method,
newline, the header string `X-TC-Key=<secretId>&X-TC-Nonce=<nonce>&X-TC-Timestamp=<timestamp>`,
newline, the request path with query, newline, the request body". -/
def specCanonicalString (httpMethod secretId : String) (nonce timestamp : Nat)
    (pathWithQuery requestBody : String) : String :=
  httpMethod ++ "\n" ++
    ("X-TC-Key=" ++ secretId ++ "&X-TC-Nonce=" ++ natToString nonce ++
      "&X-TC-Timestamp=" ++ natToString timestamp) ++
    "\n" ++ pathWithQuery ++ "\n" ++ requestBody

/-- The signature exactly as the specification words it: the base64 encoding
of the (hex-rendered) HMAC-SHA-256, keyed by the secret key, of the
canonical string. -/
def signSpec (secretId secretKey httpMethod : String) (nonce timestamp : Nat)
    (pathWithQuery requestBody : String) : String :=
  String.mk (base64Encode (utf8Bytes (hexOfDigest (hmacSha256 (utf8Bytes secretKey)
    (utf8Bytes (specCanonicalString httpMethod secretId nonce timestamp
      pathWithQuery requestBody))))))

theorem tobeSigned_eq_specCanonicalString (secretId httpMethod : String)
    (nonce timestamp : Nat) (uri body : String) :
    tobeSigned secretId httpMethod nonce timestamp uri body =
      specCanonicalString httpMethod secretId nonce timestamp uri body := by
  simp only [tobeSigned, specCanonicalString, String.append_assoc]

theorem tobeSigned_inj_method {secretId m m' : String} {n t : Nat} {u b : String}
    (h : tobeSigned secretId m n t u b = tobeSigned secretId m' n t u b) : m = m' := by
  have hd := congrArg String.data h
  simp only [tobeSigned, String.data_append, List.append_assoc] at hd
  exact String.ext (List.append_cancel_right hd)

theorem tobeSigned_inj_body {secretId m : String} {n t : Nat} {u b b' : String}
    (h : tobeSigned secretId m n t u b = tobeSigned secretId m n t u b') : b = b' := by
  have hd := congrArg String.data h
  simp only [tobeSigned, String.data_append, List.append_assoc] at hd
  exact String.ext (List.append_cancel_left (List.append_cancel_left (List.append_cancel_left
    (List.append_cancel_left (List.append_cancel_left (List.append_cancel_left
    (List.append_cancel_left (List.append_cancel_left (List.append_cancel_left
    (List.append_cancel_left (List.append_cancel_left hd)))))))))))

theorem tobeSigned_inj_uri {secretId m : String} {n t : Nat} {u u' b : String}
    (h : tobeSigned secretId m n t u b = tobeSigned secretId m n t u' b) : u = u' := by
  have hd := congrArg String.data h
  simp only [tobeSigned, String.data_append, List.append_assoc] at hd
  exact String.ext (List.append_cancel_right (List.append_cancel_left (List.append_cancel_left
    (List.append_cancel_left (List.append_cancel_left (List.append_cancel_left
    (List.append_cancel_left (List.append_cancel_left (List.append_cancel_left
    (List.append_cancel_left hd))))))))))

theorem tobeSigned_inj_nonce {secretId m : String} {n n' t : Nat} {u b : String}
    (h : tobeSigned secretId m n t u b = tobeSigned secretId m n' t u b) : n = n' := by
  have hd := congrArg String.data h
  simp only [tobeSigned, String.data_append, List.append_assoc] at hd
  exact natToString_inj (String.ext (List.append_cancel_right (List.append_cancel_left
    (List.append_cancel_left (List.append_cancel_left (List.append_cancel_left
    (List.append_cancel_left hd)))))))

theorem tobeSigned_inj_timestamp {secretId m : String} {n t t' : Nat} {u b : String}
    (h : tobeSigned secretId m n t u b = tobeSigned secretId m n t' u b) : t = t' := by
  have hd := congrArg String.data h
  simp only [tobeSigned, String.data_append, List.append_assoc] at hd
  exact natToString_inj (String.ext (List.append_cancel_right (List.append_cancel_left
    (List.append_cancel_left (List.append_cancel_left (List.append_cancel_left
    (List.append_cancel_left (List.append_cancel_left (List.append_cancel_left hd)))))))))

/-! ### JSON values and `JSON.stringify` -/

/-- A JSON value, as produced by parsing a provider response body. -/
inductive Json where
  | null
  | bool (b : Bool)
  | num (n : Int)
  | str (s : String)
  | arr (elems : List Json)
  | obj (fields : List (String × Json))

/-- Decimal rendering of an integer. -/
def intToString (i : Int) : String :=
  if i < 0 then "-" ++ natToString i.natAbs else natToString i.natAbs

/-- `JSON.stringify` escaping of one character inside a string literal. -/
def escapeJsonChar (c : Char) : String :=
  if c = '"' then "\\\""
  else if c = '\\' then "\\\\"
  else if c = '\n' then "\\n"
  else if c = '\r' then "\\r"
  else if c = '\t' then "\\t"
  else if c = Char.ofNat 8 then "\\b"
  else if c = Char.ofNat 12 then "\\f"
  else if c.toNat < 32 then
    "\\u00" ++ String.mk [hexDigitChar (c.toNat / 16), hexDigitChar (c.toNat % 16)]
  else String.singleton c

/-- `JSON.stringify` rendering of a string literal, quotes included. -/
def jsonQuote (s : String) : String :=
  "\"" ++ String.join (s.data.map escapeJsonChar) ++ "\""

mutual

/-- `JSON.stringify` of a JSON value (no spacing, keys in insertion order). -/
def jsonStringify : Json → String
  | .null => "null"
  | .bool true => "true"
  | .bool false => "false"
  | .num n => intToString n
  | .str s => jsonQuote s
  | .arr xs => "[" ++ jsonStringifyElems xs ++ "]"
  | .obj fs => "\x7b" ++ jsonStringifyFields fs ++ "\x7d"

/-- Comma-separated renderings of array elements. -/
def jsonStringifyElems : List Json → String
  | [] => ""
  | [x] => jsonStringify x
  | x :: y :: rest => jsonStringify x ++ "," ++ jsonStringifyElems (y :: rest)

/-- Comma-separated renderings of object fields. -/
def jsonStringifyFields : List (String × Json) → String
  | [] => ""
  | [(k, v)] => jsonQuote k ++ ":" ++ jsonStringify v
  | (k, v) :: f :: rest => jsonQuote k ++ ":" ++ jsonStringify v ++ "," ++ jsonStringifyFields (f :: rest)

end

/-! ### The `tmRequest` helper

`tmRequest` builds a signed HTTP request (the axios call), then classifies
the outcome:

```
try {
  const response = await axios({ method, url, headers });
  if (JSON.stringify(response.data) === '{}') {
    const error = undefinedResponse();
    Sentry.captureException(error);
    throw error;
  };
  return response.data;
} catch (error: any) {
  if (error.response) {
    const e = failedRequest(error.response.status, error.data);
    Sentry.captureException(e);
    throw e;
  } else {
    Sentry.captureException(error);
    throw error;
  }
}
```

The embedding passes the axios outcome in explicitly and returns the
function's result together with the list of errors reported to Sentry, in
reporting order. -/

/-- A `TRPCError` as constructed by this module. -/
structure TRPCErrorModel where
  code : String
  message : String
  cause : Option Json

/-- `undefinedResponse()`: thrown when the provider answers 200 with `{}`. -/
def undefinedResponse : TRPCErrorModel :=
  { code := "NOT_FOUND"
    message := "Response data is undefined"
    cause := some (Json.str "check validties of Tencent Meeting API inputs") }

/-- `failedRequest(statusCode, data)`: the structured BAD_REQUEST error. -/
def failedRequest (statusCode : Nat) (data : Option Json) : TRPCErrorModel :=
  { code := "BAD_REQUEST"
    message := "Tencent Meeting Rest API request failed, status Code:" ++ natToString statusCode
    cause := data }

/-- `paginationNotSupported()`: the METHOD_NOT_SUPPORTED error. -/
def paginationNotSupported : TRPCErrorModel :=
  { code := "METHOD_NOT_SUPPORTED"
    message := "Pagination isn\x27t supported"
    cause := none }

/-- The `error.response` carried by a failed transport error (axios attaches
the provider's status and response payload here). -/
structure ErrResponse where
  status : Nat
  data : Json

/-- A JavaScript error value as seen by the `catch` block.  `response`
models the `error.response` property; `dataProp` models the `error.data`
property read by `failedRequest(error.response.status, error.data)` — an
axios transport error defines no `data` property (its payload sits at
`error.response.data`), so for such errors `dataProp` is `none`. -/
structure JsError where
  response : Option ErrResponse
  dataProp : Option Json

/-- A value thrown inside `tmRequest`: either one of this module's
`TRPCError`s or a JavaScript error from the transport. -/
inductive Thrown where
  | trpc (e : TRPCErrorModel)
  | js (e : JsError)

/-- The `error.response` property of a caught value (a `TRPCError` has no
such property). -/
def thrownResponse : Thrown → Option ErrResponse
  | .trpc _ => none
  | .js e => e.response

/-- The `error.data` property of a caught value (a `TRPCError` has no such
property). -/
def thrownDataProp : Thrown → Option Json
  | .trpc _ => none
  | .js e => e.dataProp

/-- The axios call either yields a response (`success data`, any HTTP 200
body) or throws (`failure err`). -/
inductive AxiosOutcome where
  | success (data : Json)
  | failure (err : JsError)

/-- The `try` block after the axios call succeeded: the empty-object check,
its Sentry report, and its throw. -/
def tmTryBlock (data : Json) : Except TRPCErrorModel Json × List Thrown :=
  if jsonStringify data = "\x7b\x7d" then
    (Except.error undefinedResponse, [Thrown.trpc undefinedResponse])
  else (Except.ok data, [])

/-- The `catch` block: a caught value carrying a `response` is mapped to
`failedRequest(error.response.status, error.data)` and reported; anything
else is reported and rethrown unchanged. -/
def tmCatchBlock (c : Thrown) : Thrown × List Thrown :=
  match thrownResponse c with
  | some r =>
    let e := Thrown.trpc (failedRequest r.status (thrownDataProp c))
    (e, [e])
  | none => (c, [c])

/-- `tmRequest`'s result and the full list of Sentry reports, for a given
axios outcome.  A throw from inside the `try` block (the empty-object case)
is caught by the function's own `catch`. -/
def tmRequestSem (outcome : AxiosOutcome) : Except Thrown Json × List Thrown :=
  match outcome with
  | .success d =>
    match tmTryBlock d with
    | (Except.ok v, reports) => (Except.ok v, reports)
    | (Except.error e, reports) =>
      let handled := tmCatchBlock (Thrown.trpc e)
      (Except.error handled.1, reports ++ handled.2)
  | .failure err =>
    let handled := tmCatchBlock (Thrown.js err)
    (Except.error handled.1, handled.2)

/-! ### Building the outbound HTTP request

`tmRequest` assembles `pathWithQuery` with `qs.stringify`, signs it, and
issues `axios({ method, url, headers })`.  Note that the config object
passed to axios carries **no `data` field**: the JSON body only enters the
signature. -/

/-- Uppercase hex digit, for percent-encoding. -/
def hexDigitCharUpper (d : Nat) : Char := "0123456789ABCDEF".data.getD (d % 16) '0'

/-- Characters `encodeURIComponent` leaves unescaped besides ASCII
letters and digits. -/
def uriUnreservedMarks : List Char := "-_.!~*\x27()".data

/-- `encodeURIComponent` of one character (the escaping used by
`qs.stringify`): ASCII letters, digits and `-_.!~*'()` pass through,
everything else becomes percent-encoded UTF-8 bytes. -/
def encodeURIComponentChar (c : Char) : String :=
  let n := c.toNat
  if (65 ≤ n ∧ n ≤ 90) ∨ (97 ≤ n ∧ n ≤ 122) ∨ (48 ≤ n ∧ n ≤ 57) ∨ c ∈ uriUnreservedMarks then
    String.singleton c
  else
    String.join ((utf8EncodeCharNat c).map (fun byte =>
      String.mk ['%', hexDigitCharUpper (byte / 16), hexDigitCharUpper (byte % 16)]))

/-- `encodeURIComponent` of a string. -/
def encodeURIComponent (s : String) : String :=
  String.join (s.data.map encodeURIComponentChar)

/-- `qs.stringify` of a flat record of string values (keys in insertion
order, `k=v` pairs joined with `&`, both sides URI-encoded). -/
def qsStringify (query : List (String × String)) : String :=
  String.intercalate "&" (query.map (fun kv => encodeURIComponent kv.1 ++ "=" ++ encodeURIComponent kv.2))

/-- The configuration `tmRequest` hands to `axios`: method, url, headers —
and no `data` field, which the embedding records as `data : Option String`
being `none`. -/
structure HttpRequest where
  method : String
  url : String
  headers : List (String × String)
  data : Option String

/-- The secret credentials read from `apiEnv`. -/
structure TmCredentials where
  secretId : String
  secretKey : String
  enterpriseId : String
  appId : String

/-- `requestUri + (hasQuery ? "?" + qs.stringify(query) : "")`. -/
def pathWithQuery (requestUri : String) (query : List (String × String)) : String :=
  requestUri ++ (if query.length > 0 then "?" ++ qsStringify query else "")

/-- The body text that enters the signature:
`method === "GET" ? "" : JSON.stringify(body)`. -/
def tmSignedBodyText (method : String) (body : List (String × String)) : String :=
  if method = "GET" then "" else jsonStringify (Json.obj (body.map (fun kv => (kv.1, Json.str kv.2))))

/-- The HTTP request `tmRequest` issues through axios for the given method,
uri, query and body, at time `now` with nonce `nonce`.  Mirrors the source:
the signature covers `bodyText`, but the axios config contains only
`method`, `url` and `headers` — no request body. -/
def tmBuildRequest (env : TmCredentials) (method requestUri : String)
    (query : List (String × String)) (body : List (String × String))
    (now nonce : Nat) : HttpRequest :=
  let pq := pathWithQuery requestUri query
  let bodyText := tmSignedBodyText method body
  let signature := sign env.secretId env.secretKey method nonce now pq bodyText
  { method := method
    url := "https://api.meeting.qq.com" ++ pq
    headers :=
      [("Content-Type", "application/json"),
       ("X-TC-Key", env.secretId),
       ("AppId", env.enterpriseId),
       ("SdkId", env.appId),
       ("X-TC-Timestamp", natToString now),
       ("X-TC-Nonce", natToString nonce),
       ("X-TC-Signature", signature),
       ("X-TC-Registered", "1")]
    data := none }

/-! ### `createMeeting` -/

/-- The JSON body `createMeeting` passes to `tmRequest` (insertion order). -/
def createMeetingBody (tmUserId subject : String)
    (startTimeSecond endTimeSecond : Nat) : List (String × String) :=
  [("userid", tmUserId),
   ("instanceid", "1"),
   ("subject", subject),
   ("start_time", natToString startTimeSecond),
   ("end_time", natToString endTimeSecond),
   ("type", "0")]

/-- The HTTP request issued by
`createMeeting(tmUserId, subject, startTimeSecond, endTimeSecond)`:
`tmRequest('POST', '/v1/meetings', {}, body)`. -/
def createMeetingRequest (env : TmCredentials) (tmUserId subject : String)
    (startTimeSecond endTimeSecond now nonce : Nat) : HttpRequest :=
  tmBuildRequest env "POST" "/v1/meetings" []
    (createMeetingBody tmUserId subject startTimeSecond endTimeSecond) now nonce

/-! ### `getMeeting` -/

/-- One entry of `meeting_info_list` in `getMeeting`'s validated schema. -/
structure MeetingInfo where
  subject : String
  meeting_id : String
  meeting_code : String
  status : String
  join_url : String
  start_time : String
  end_time : String
deriving DecidableEq

/-- `getMeeting`'s schema-validated response shape. -/
structure GetMeetingResponse where
  meeting_number : Nat
  meeting_info_list : List MeetingInfo
deriving DecidableEq

/-- What `getMeeting` returns from a validated response:
`zRes.parse(...).meeting_info_list[0]`.  A JavaScript index access on an
empty array yields `undefined`, modelled as `none`. -/
def getMeetingResult (res : GetMeetingResponse) : Option MeetingInfo :=
  res.meeting_info_list.head?

/-! ### `listRecords` -/

/-- One `record_files` entry of `listRecords`' schema. -/
structure RecordFile where
  record_file_id : String
  record_start_time : Nat
  record_end_time : Nat
deriving DecidableEq

/-- One `record_meetings` entry of `listRecords`' schema. -/
structure RecordMeeting where
  meeting_record_id : String
  subject : String
  state : Nat
  record_files : Option (List RecordFile)
deriving DecidableEq

/-- `listRecords`' schema-validated page response. -/
structure RecordsResponse where
  total_count : Nat
  total_page : Nat
  record_meetings : Option (List RecordMeeting)
deriving DecidableEq

/-- The query `listRecords` sends for one page: userid, the 31-day lookback
window (`Date.now()/1000 - 31*24*3600` to `Date.now()/1000`, rendered by
`JSON.stringify`), the maximal page size 20, and the page number. -/
structure RecordsQuery where
  userid : String
  start_time : String
  end_time : String
  page_size : Nat
  page : Nat
deriving DecidableEq

/-- The concrete query for page `page` at time `nowSecond`. -/
def recordsQuery (tmUserId : String) (nowSecond page : Nat) : RecordsQuery :=
  { userid := tmUserId
    start_time := natToString (nowSecond - 31 * 24 * 3600)
    end_time := natToString nowSecond
    page_size := 20
    page := page }

/-- The `while (true)` pagination loop of `listRecords`, with the provider
passed in as a function from query to validated response.  Returns the
queries issued (in order) and the accumulated `record_meetings`; `fuel`
bounds the number of iterations and `none` means the loop was still
running when fuel ran out (the source loop itself would not have
terminated yet). -/
def listRecordsAux (provider : RecordsQuery → RecordsResponse) (tmUserId : String)
    (nowSecond : Nat) : Nat → Nat → List RecordsQuery → List RecordMeeting →
    Option (List RecordsQuery × List RecordMeeting)
  | 0, _, _, _ => none
  | fuel + 1, page, reqs, acc =>
    let q := recordsQuery tmUserId nowSecond page
    let res := provider q
    let reqs2 := reqs ++ [q]
    let acc2 := acc ++ res.record_meetings.getD []
    if res.total_page ≤ page then some (reqs2, acc2)
    else listRecordsAux provider tmUserId nowSecond fuel (page + 1) reqs2 acc2

/-- `listRecords(tmUserId)` run against `provider`, starting at page 1. -/
def listRecords (provider : RecordsQuery → RecordsResponse) (tmUserId : String)
    (nowSecond fuel : Nat) : Option (List RecordsQuery × List RecordMeeting) :=
  listRecordsAux provider tmUserId nowSecond fuel 1 [] []

/-! ### `getRecordURLs` -/

/-- One `meeting_summary` entry of `getRecordURLs`' schema. -/
structure SummaryFile where
  download_address : String
  file_type : String
deriving DecidableEq

/-- One `record_files` entry of `getRecordURLs`' schema. -/
structure AddrRecordFile where
  record_file_id : String
  meeting_summary : Option (List SummaryFile)
deriving DecidableEq

/-- `getRecordURLs`' schema-validated response. -/
structure AddressesResponse where
  total_page : Nat
  record_files : List AddrRecordFile
deriving DecidableEq

/-- The post-validation step of `getRecordURLs`:
`if (res.total_page != 1) throw paginationNotSupported(); return res;`. -/
def getRecordURLsResult (res : AddressesResponse) : Except TRPCErrorModel AddressesResponse :=
  if res.total_page ≠ 1 then Except.error paginationNotSupported else Except.ok res

/-! ### The `Group` model's cascade destroy (`Group.ts`)

`@BeforeDestroy cascadeDestroy` looks up every `GroupUser` and every
`Transcript` whose `groupId` is the group's id, destroys them all
(`Promise.all` over the individual destroys), and only then does the
framework delete the group row itself.  The embedding is a row-store
state; the `Promise.all` fan-out appears as the batch removal of all
matching rows in one step. -/

/-- A `groups` row. -/
structure GroupRow where
  id : String
  name : Option String
  meetingLink : Option String
  partnershipId : Option String
deriving DecidableEq

/-- A `group_users` join-table row. -/
structure GroupUserRow where
  groupId : String
  userId : String
deriving DecidableEq

/-- A `transcripts` row. -/
structure TranscriptRow where
  transcriptId : String
  groupId : String
deriving DecidableEq

/-- The rows of the three tables the cascade touches. -/
structure DbState where
  groups : List GroupRow
  groupUsers : List GroupUserRow
  transcripts : List TranscriptRow
deriving DecidableEq

/-- The `BeforeDestroy` hook: destroy every dependent `GroupUser` and
`Transcript` row of `group`; the group row itself is untouched here. -/
def cascadeDestroy (group : GroupRow) (s : DbState) : DbState :=
  { s with
    groupUsers := s.groupUsers.filter (fun gu => !(gu.groupId == group.id))
    transcripts := s.transcripts.filter (fun t => !(t.groupId == group.id)) }

/-- `group.destroy()`: the hook runs first, then the group row is removed. -/
def destroyGroup (group : GroupRow) (s : DbState) : DbState :=
  let afterHook := cascadeDestroy group s
  { afterHook with groups := afterHook.groups.filter (fun g => !(g.id == group.id)) }

/-! ### `formatGroupName` -/

/-- Chinese numeral rendering, modelling `nzh.cn.encodeS` from the `nzh`
library as used by `formatGroupName` (section digits with 十/百/千 units,
万-grouping, a single 零 for zero runs, and the leading 一十 contracted
to 十). -/
def cnDigit (d : Nat) : String :=
  ["零", "一", "二", "三", "四", "五", "六", "七", "八", "九"].getD (d % 10) "零"

/-- Encode digit/unit pairs (most significant first), skipping zero digits
and emitting a single `零` for a zero run between nonzero digits.
`started` records whether a digit has been emitted yet, `zeroPending`
whether a zero run is waiting for a following nonzero digit. -/
def cnFourAux : List (Nat × String) → Bool → Bool → String
  | [], _, _ => ""
  | (d, unit) :: rest, started, zeroPending =>
    if d = 0 then cnFourAux rest started (zeroPending || started)
    else (if zeroPending then "零" else "") ++ cnDigit d ++ unit ++ cnFourAux rest true false

/-- Encode a four-digit section `1 ≤ n ≤ 9999` (empty for `0`). -/
def cnFour (n : Nat) : String :=
  cnFourAux [(n / 1000 % 10, "千"), (n / 100 % 10, "百"), (n / 10 % 10, "十"), (n % 10, "")]
    false false

/-- Positive numbers, grouped by ten-thousands (万). -/
def cnNumPos (n : Nat) : String :=
  if _h : n < 10000 then cnFour n
  else
    cnNumPos (n / 10000) ++ "万" ++
      (if n % 10000 = 0 then ""
       else (if n % 10000 < 1000 then "零" else "") ++ cnFour (n % 10000))
  decreasing_by exact Nat.div_lt_self (by omega) (by decide)

/-- Contract a leading 一十 to 十 (`encodeS` writes 13 as 十三). -/
def cnTenMin (s : String) : String :=
  match s.data with
  | c1 :: c2 :: rest => if c1 = '一' ∧ c2 = '十' then String.mk ('十' :: rest) else s
  | _ => s

/-- `nzh.cn.encodeS(n)` for a nonnegative count. -/
def nzhEncodeS (n : Nat) : String :=
  if n = 0 then "零" else cnTenMin (cnNumPos n)

/-- `formatGroupName(name, userCount)` from `Group.ts`:
`name ?? (userCount <= 2 ? '一对一通话' : nzh.cn.encodeS(userCount) + '人通话')`. -/
def formatGroupName (name : Option String) (userCount : Nat) : String :=
  match name with
  | some s => s
  | none => if userCount ≤ 2 then "一对一通话" else nzhEncodeS userCount ++ "人通话"

/-! ## Claim theorems -/

theorem jsonStringify_obj_ne_empty (fs : List (String × Json)) :
    jsonStringify (Json.obj fs) ≠ "" := by
  intro h
  have hlen := congrArg String.length h
  simp only [jsonStringify, String.length_append] at hlen
  have h1 : ("\x7b" : String).length = 1 := rfl
  have h2 : ("\x7d" : String).length = 1 := rfl
  have h3 : ("" : String).length = 0 := rfl
  rw [h1, h2, h3] at hlen
  omega

/-- C1: the claim fails on the code (code bug).  For every call,
`createMeeting` reaches `axios({ method, url, headers })` — an HTTP POST
whose config carries **no `data` field**, so no JSON body is submitted,
while the (nonempty) JSON body text enters only the signature.  This
theorem evaluates the request the code builds: correct method and url, but
`data = none` even though the signed body text is nonempty. -/
theorem createMeeting_request_has_no_body (env : TmCredentials) (tmUserId subject : String)
    (startTimeSecond endTimeSecond now nonce : Nat) :
    (createMeetingRequest env tmUserId subject startTimeSecond endTimeSecond now nonce).method
        = "POST" ∧
    (createMeetingRequest env tmUserId subject startTimeSecond endTimeSecond now nonce).url
        = "https://api.meeting.qq.com/v1/meetings" ∧
    (createMeetingRequest env tmUserId subject startTimeSecond endTimeSecond now nonce).data
        = none ∧
    tmSignedBodyText "POST" (createMeetingBody tmUserId subject startTimeSecond endTimeSecond)
        ≠ "" := by
  refine ⟨rfl, rfl, rfl, ?_⟩
  have : tmSignedBodyText "POST" (createMeetingBody tmUserId subject startTimeSecond endTimeSecond)
      = jsonStringify (Json.obj ((createMeetingBody tmUserId subject startTimeSecond
        endTimeSecond).map (fun kv => (kv.1, Json.str kv.2)))) := by
    simp [tmSignedBodyText]
  rw [this]
  exact jsonStringify_obj_ne_empty _

/-- C2 counterexample: a 200 response whose body serializes to `"{}"` is
reported to Sentry twice, not exactly once — the NOT_FOUND error is
captured where it is created and then again by `tmRequest`'s own `catch`
block, which the inner `throw` lands in. -/
theorem tmRequest_empty_object_reported_twice_not_once :
    (tmRequestSem (AxiosOutcome.success (Json.obj []))).2 =
      [Thrown.trpc undefinedResponse, Thrown.trpc undefinedResponse] ∧
    (tmRequestSem (AxiosOutcome.success (Json.obj []))).2.length ≠ 1 := by
  have hjs : jsonStringify (Json.obj []) = "\x7b\x7d" := by
    simp only [jsonStringify, jsonStringifyFields]
    rfl
  constructor
  · simp [tmRequestSem, tmTryBlock, hjs, tmCatchBlock, thrownResponse]
  · simp [tmRequestSem, tmTryBlock, hjs, tmCatchBlock, thrownResponse]

/-- C2 amended: for every endpoint (all share `tmRequest`), an HTTP 200
response whose body serializes to `"{}"` makes the call raise the
NOT_FOUND `undefinedResponse` error instead of succeeding, and that error
is reported to the monitoring service exactly **twice** (once at creation,
once more by the surrounding catch handler). -/
theorem tmRequest_empty_object_raises_notFound (data : Json)
    (h : jsonStringify data = "\x7b\x7d") :
    tmRequestSem (AxiosOutcome.success data) =
      (Except.error (Thrown.trpc undefinedResponse),
        [Thrown.trpc undefinedResponse, Thrown.trpc undefinedResponse]) ∧
    undefinedResponse.code = "NOT_FOUND" := by
  constructor
  · simp [tmRequestSem, tmTryBlock, h, tmCatchBlock, thrownResponse]
  · rfl

theorem tmRequest_empty_object_raises_notFound_witness :
    tmRequestSem (AxiosOutcome.success (Json.obj [])) =
      (Except.error (Thrown.trpc undefinedResponse),
        [Thrown.trpc undefinedResponse, Thrown.trpc undefinedResponse]) ∧
    undefinedResponse.code = "NOT_FOUND" :=
  tmRequest_empty_object_raises_notFound (Json.obj [])
    (by simp only [jsonStringify, jsonStringifyFields]; rfl)

/-- C3: the claim fails on the code (code bug).  When the transport error
carries a response, the code builds the BAD_REQUEST error from
`error.response.status` and `error.data` — but an axios error has no
`data` property (the payload sits at `error.response.data`), so the
error's cause is `undefined` rather than the provider's payload.  The
error-without-response half of the claim does hold: such errors are
reported once and propagated unchanged. -/
theorem tmRequest_failure_drops_provider_payload (status : Nat) (payload : Json)
    (dataProp : Option Json) :
    tmRequestSem (AxiosOutcome.failure ⟨some ⟨status, payload⟩, none⟩) =
      (Except.error (Thrown.trpc (failedRequest status none)),
        [Thrown.trpc (failedRequest status none)]) ∧
    (failedRequest status none).cause = none ∧
    failedRequest status none ≠ failedRequest status (some payload) ∧
    tmRequestSem (AxiosOutcome.failure ⟨none, dataProp⟩) =
      (Except.error (Thrown.js ⟨none, dataProp⟩), [Thrown.js ⟨none, dataProp⟩]) := by
  refine ⟨?_, rfl, ?_, ?_⟩
  · simp [tmRequestSem, tmCatchBlock, thrownResponse, thrownDataProp]
  · simp [failedRequest]
  · simp [tmRequestSem, tmCatchBlock, thrownResponse]

/-- C4: for every input, the signature produced by `sign` is exactly the
base64 encoding of the (hex-rendered, as `digest('hex')` produces it)
HMAC-SHA-256, keyed by the secret key, of the canonical string
`method \n X-TC-Key=<id>&X-TC-Nonce=<nonce>&X-TC-Timestamp=<ts> \n path-with-query \n body`. -/
theorem sign_eq_signSpec (secretId secretKey httpMethod : String) (nonce timestamp : Nat)
    (pathQuery requestBody : String) :
    sign secretId secretKey httpMethod nonce timestamp pathQuery requestBody =
      signSpec secretId secretKey httpMethod nonce timestamp pathQuery requestBody := by
  simp only [sign, signSpec, hexHmacSha256, tobeSigned_eq_specCanonicalString]

/-- C5 counterexample: "changing exactly one input changes the signature"
is false — the signature is a function of a 256-bit digest, so among the
infinitely many nonces two distinct ones must collide (pigeonhole), giving
two calls that differ only in the nonce yet sign identically. -/
theorem sign_nonce_collision_exists :
    ∃ n n' : Nat, n ≠ n' ∧
      sign "secretId" "secretKey" "POST" n 1700000000 "/v1/meetings" "" =
        sign "secretId" "secretKey" "POST" n' 1700000000 "/v1/meetings" "" := by
  obtain ⟨x, y, hxy, hf⟩ := Finite.exists_ne_map_eq_of_infinite
    (fun n : Nat =>
      (⟨hmacSha256 (utf8Bytes "secretKey")
          (utf8Bytes (tobeSigned "secretId" "POST" n 1700000000 "/v1/meetings" "")),
        hmacSha256_lt _ _⟩ : Fin (2 ^ 256)))
  refine ⟨x, y, hxy, ?_⟩
  have hd : hmacSha256 (utf8Bytes "secretKey")
      (utf8Bytes (tobeSigned "secretId" "POST" x 1700000000 "/v1/meetings" "")) =
      hmacSha256 (utf8Bytes "secretKey")
      (utf8Bytes (tobeSigned "secretId" "POST" y 1700000000 "/v1/meetings" "")) :=
    congrArg Fin.val hf
  exact congrArg (fun d => String.mk (base64Encode (utf8Bytes (hexOfDigest d)))) hd

/-- C5 amended: the signing function is deterministic (recomputation with
identical inputs yields the identical signature), and changing exactly one
of method, nonce, timestamp, path, or body always changes the canonical
string that is signed; the signature itself may collide, since the MAC
maps the infinitely many canonical strings into a finite digest space. -/
theorem sign_deterministic_and_inputs_separated
    (secretId secretKey m m' : String) (n n' t t' : Nat) (u u' b b' : String)
    (hm : m ≠ m') (hn : n ≠ n') (ht : t ≠ t') (hu : u ≠ u') (hb : b ≠ b') :
    sign secretId secretKey m n t u b = sign secretId secretKey m n t u b ∧
    tobeSigned secretId m n t u b ≠ tobeSigned secretId m' n t u b ∧
    tobeSigned secretId m n t u b ≠ tobeSigned secretId m n' t u b ∧
    tobeSigned secretId m n t u b ≠ tobeSigned secretId m n t' u b ∧
    tobeSigned secretId m n t u b ≠ tobeSigned secretId m n t u' b ∧
    tobeSigned secretId m n t u b ≠ tobeSigned secretId m n t u b' :=
  ⟨rfl,
   fun h => hm (tobeSigned_inj_method h),
   fun h => hn (tobeSigned_inj_nonce h),
   fun h => ht (tobeSigned_inj_timestamp h),
   fun h => hu (tobeSigned_inj_uri h),
   fun h => hb (tobeSigned_inj_body h)⟩

theorem sign_deterministic_and_inputs_separated_witness :
    sign "id" "key" "POST" 1 3 "/a" "x" = sign "id" "key" "POST" 1 3 "/a" "x" ∧
    tobeSigned "id" "POST" 1 3 "/a" "x" ≠ tobeSigned "id" "GET" 1 3 "/a" "x" ∧
    tobeSigned "id" "POST" 1 3 "/a" "x" ≠ tobeSigned "id" "POST" 2 3 "/a" "x" ∧
    tobeSigned "id" "POST" 1 3 "/a" "x" ≠ tobeSigned "id" "POST" 1 4 "/a" "x" ∧
    tobeSigned "id" "POST" 1 3 "/a" "x" ≠ tobeSigned "id" "POST" 1 3 "/b" "x" ∧
    tobeSigned "id" "POST" 1 3 "/a" "x" ≠ tobeSigned "id" "POST" 1 3 "/a" "y" :=
  sign_deterministic_and_inputs_separated "id" "key" "POST" "GET" 1 2 3 4 "/a" "/b" "x" "y"
    (by decide) (by decide) (by decide) (by decide) (by decide)

theorem listRecordsAux_const_pages (provider : RecordsQuery → RecordsResponse)
    (u : String) (now N : Nat) (hN : ∀ q, (provider q).total_page = N) :
    ∀ fuel page reqs acc, 1 ≤ page → page ≤ N → N + 1 - page ≤ fuel →
    listRecordsAux provider u now fuel page reqs acc =
      some (reqs ++ (List.range' page (N + 1 - page)).map (recordsQuery u now),
        acc ++ ((List.range' page (N + 1 - page)).map
          (fun p => (provider (recordsQuery u now p)).record_meetings.getD [])).flatten) := by
  intro fuel
  induction fuel with
  | zero => intro page reqs acc h1 h2 h3; omega
  | succ f ih =>
    intro page reqs acc h1 h2 h3
    simp only [listRecordsAux, hN]
    by_cases hb : N ≤ page
    · rw [if_pos hb]
      have hpN : page = N := Nat.le_antisymm h2 hb
      have hone : N + 1 - page = 1 := by omega
      rw [hone, hpN]
      simp [List.range'_one]
    · rw [if_neg hb]
      rw [ih (page + 1) _ _ (by omega) (by omega) (by omega)]
      have hlen : N + 1 - page = (N - page) + 1 := by omega
      rw [hlen, List.range'_succ]
      simp [List.append_assoc]

/-- C6 amended: against a provider reporting `total_page = N` on every
response, `listRecords` makes exactly `max 1 N` sequential page requests —
pages `1` through `N` when `N ≥ 1`, and a single request for page `1` when
`N = 0`, since the first page is always fetched before the count is seen —
each over the 31-day window with page size 20, concatenates the returned
`record_meetings` in page order, and terminates after the last page. -/
theorem listRecords_const_total_page (provider : RecordsQuery → RecordsResponse)
    (u : String) (now N fuel : Nat) (hN : ∀ q, (provider q).total_page = N)
    (hfuel : max 1 N ≤ fuel) :
    listRecords provider u now fuel =
      some ((List.range' 1 (max 1 N)).map (recordsQuery u now),
        ((List.range' 1 (max 1 N)).map
          (fun p => (provider (recordsQuery u now p)).record_meetings.getD [])).flatten) := by
  match N with
  | 0 =>
    match fuel, hfuel with
    | f + 1, _ =>
      simp only [listRecords, listRecordsAux, hN, Nat.max_self]
      rw [if_pos (by omega)]
      simp [List.range'_one]
  | M + 1 =>
    have hmax : max 1 (M + 1) = M + 1 := Nat.max_eq_right (by omega)
    rw [hmax] at hfuel ⊢
    have := listRecordsAux_const_pages provider u now (M + 1) hN
      fuel 1 [] [] (by omega) (by omega) (by omega)
    simpa [listRecords] using this

/-- C6 counterexample: a provider reporting `total_page = 0` on every
response still receives one page request (the unconditional first fetch),
where the claim as stated demands exactly `N = 0` requests. -/
theorem listRecords_zero_total_page_one_request :
    listRecords (fun _ => ⟨0, 0, none⟩) "u" 1700000000 1 =
      some ([recordsQuery "u" 1700000000 1], []) ∧
    ((listRecords (fun _ => ⟨0, 0, none⟩) "u" 1700000000 1).map
      (fun r => r.1.length)) ≠ some 0 := by
  constructor
  · simp [listRecords, listRecordsAux]
  · simp [listRecords, listRecordsAux]

theorem listRecords_const_total_page_witness :
    listRecords (fun _ => ⟨4, 2, some [⟨"r", "s", 3, none⟩]⟩) "u" 1700000000 2 =
      some ((List.range' 1 (max 1 2)).map (recordsQuery "u" 1700000000),
        ((List.range' 1 (max 1 2)).map
          (fun p => ((fun _ => (⟨4, 2, some [⟨"r", "s", 3, none⟩]⟩ : RecordsResponse))
            (recordsQuery "u" 1700000000 p)).record_meetings.getD [])).flatten) :=
  listRecords_const_total_page (fun _ => ⟨4, 2, some [⟨"r", "s", 3, none⟩]⟩)
    "u" 1700000000 2 2 (fun _ => rfl) (by decide)

/-- C7 amended: `getRecordURLs` raises the not-supported error exactly when
the validated response's `total_page` differs from 1 — this covers every
multi-page response (in particular `total_page = 2`), but also
`total_page = 0`, which does not span more than one page; otherwise it
returns the validated response. -/
theorem getRecordURLs_rejects_iff_total_page_ne_one (res : AddressesResponse) :
    (getRecordURLsResult res = Except.error paginationNotSupported ↔ res.total_page ≠ 1) ∧
    (getRecordURLsResult res = Except.ok res ↔ res.total_page = 1) ∧
    getRecordURLsResult ⟨2, []⟩ = Except.error paginationNotSupported := by
  refine ⟨?_, ?_, ?_⟩
  · unfold getRecordURLsResult
    by_cases h : res.total_page = 1 <;> simp [h]
  · unfold getRecordURLsResult
    by_cases h : res.total_page = 1 <;> simp [h]
  · rfl

/-- C7 counterexample: a validated response with `total_page = 0` does not
span more than one page, yet the code rejects it with the not-supported
error — so "raises exactly when more than one page" is false as stated. -/
theorem getRecordURLs_rejects_zero_total_page :
    getRecordURLsResult ⟨0, []⟩ = Except.error paginationNotSupported ∧
    ¬ (1 : Nat) < (0 : Nat) := ⟨rfl, by decide⟩

theorem length_filter_not_add {α : Type} (l : List α) (f : α → Bool) :
    l.length = (l.filter (fun a => ! f a)).length + (l.filter f).length := by
  induction l with
  | nil => rfl
  | cons a l ih =>
    by_cases hf : f a = true <;> simp [List.filter, hf] <;> omega

/-- C8: destroying a `Group` first runs the cascade hook, which removes
every dependent `GroupUser` row (N of them) and every dependent
`Transcript` row (M of them) while leaving the `groups` table untouched —
so all N + M dependent rows are gone before the group row itself is
removed — and only then removes the group row, for every group and state. -/
theorem destroyGroup_cascades_dependents_first (g : GroupRow) (s : DbState) :
    (cascadeDestroy g s).groups = s.groups ∧
    (cascadeDestroy g s).groupUsers.all (fun gu => !(gu.groupId == g.id)) = true ∧
    (cascadeDestroy g s).transcripts.all (fun t => !(t.groupId == g.id)) = true ∧
    s.groupUsers.length = (cascadeDestroy g s).groupUsers.length +
      (s.groupUsers.filter (fun gu => gu.groupId == g.id)).length ∧
    s.transcripts.length = (cascadeDestroy g s).transcripts.length +
      (s.transcripts.filter (fun t => t.groupId == g.id)).length ∧
    (destroyGroup g s).groupUsers = (cascadeDestroy g s).groupUsers ∧
    (destroyGroup g s).transcripts = (cascadeDestroy g s).transcripts ∧
    (destroyGroup g s).groups = s.groups.filter (fun gr => !(gr.id == g.id)) := by
  refine ⟨rfl, ?_, ?_, ?_, ?_, rfl, rfl, rfl⟩
  · simp only [cascadeDestroy, List.all_eq_true]
    intro gu hgu
    exact (List.mem_filter.mp hgu).2
  · simp only [cascadeDestroy, List.all_eq_true]
    intro t ht
    exact (List.mem_filter.mp ht).2
  · exact length_filter_not_add s.groupUsers (fun gu => gu.groupId == g.id)
  · exact length_filter_not_add s.transcripts (fun t => t.groupId == g.id)

/-- C9: `formatGroupName` returns the explicit name whenever it is
non-null; with a null name it returns the one-on-one label `一对一通话`
for user counts 1 and 2 and the localized count label
`<Chinese numeral>人通话` for larger counts — in particular `五人通话`
for 5 — and `formatGroupName("Custom", 5)` returns `"Custom"`. -/
theorem formatGroupName_spec :
    (∀ s n, formatGroupName (some s) n = s) ∧
    formatGroupName none 1 = "一对一通话" ∧
    formatGroupName none 2 = "一对一通话" ∧
    (∀ n, 2 < n → formatGroupName none n = nzhEncodeS n ++ "人通话") ∧
    formatGroupName none 5 = "五人通话" ∧
    formatGroupName (some "Custom") 5 = "Custom" := by
  refine ⟨fun s n => rfl, rfl, rfl, fun n hn => ?_, ?_, rfl⟩
  · simp only [formatGroupName]
    rw [if_neg (by omega)]
  · have h5 : nzhEncodeS 5 = "五" := by
      rw [nzhEncodeS, if_neg (by omega), cnNumPos]
      rfl
    simp only [formatGroupName]
    rw [if_neg (by omega), h5]
    rfl

theorem formatGroupName_spec_witness :
    formatGroupName none 3 = nzhEncodeS 3 ++ "人通话" :=
  formatGroupName_spec.2.2.2.1 3 (by decide)

/-- C10: a schema-valid `getMeeting` response with an empty
`meeting_info_list` makes `getMeeting` return `undefined` (here `none`)
rather than raise: the `[0]` index access is unguarded, so callers can
receive `undefined` from a successful, schema-valid call. -/
theorem getMeeting_empty_list_returns_undefined (res : GetMeetingResponse)
    (h : res.meeting_info_list = []) : getMeetingResult res = none := by
  simp [getMeetingResult, h]

theorem getMeeting_empty_list_returns_undefined_witness :
    getMeetingResult ⟨0, []⟩ = none :=
  getMeeting_empty_list_returns_undefined ⟨0, []⟩ rfl

end Yuanjian
